import Mathlib

/-!
Verification development for the out-of-band invitation lifecycle
(`OutOfBandApi`) and the signing-provider registry of this repository.

The TypeScript source is embedded shallowly: stateful methods become pure
functions that return a trace of externally visible actions (`OobAction`)
together with an `Except` outcome; external collaborators (message-handler
registry, connections lookup, event stream, routing service) are gathered in
an `Env` record.  Asynchronous waits are modelled by their observable
behaviour: the reuse sub-protocol's event stream is a time-stamped list of
events, and its 15000 ms timeout compares arrival times.
-/

set_option linter.unusedVariables false

/-- Role of an out-of-band exchange record (`OutOfBandRole`). -/
inductive OutOfBandRole
  | Sender
  | Receiver
  deriving DecidableEq, Repr

/-- State of an out-of-band exchange record (`OutOfBandState`). -/
inductive OutOfBandState
  | Initial
  | AwaitResponse
  | PrepareResponse
  | Done
  deriving DecidableEq, Repr

/-- A plaintext DIDComm message; only its message type is relevant here. -/
structure PlaintextMessage where
  msgType : String
  deriving DecidableEq, Repr

/-- A connection record as observed by the out-of-band module: an identifier
and the `isReady` readiness flag. -/
structure ConnectionRecord where
  id : String
  isReady : Bool
  deriving DecidableEq, Repr

/-- The v1 out-of-band invitation (`OutOfBandInvitation`).  `handshakeProtocols`
and `requests` are `Option`s so that an absent (`undefined`) attribute is
distinguished from an empty list, mirroring JavaScript truthiness at the
branch points of the source.  `invitationDids` models the class's derived
getter (declared outside the shown source) listing invitation-derived DIDs,
one per service. -/
structure OutOfBandInvitation where
  id : String
  handshakeProtocols : Option (List String)
  requests : Option (List PlaintextMessage)
  services : List String
  invitationDids : List String
  deriving DecidableEq, Repr

/-- The v2 out-of-band invitation (`V2OutOfBandInvitation`); only its identity
matters for the embedded control flow. -/
structure V2OutOfBandInvitation where
  id : String
  deriving DecidableEq, Repr

/-- The persisted out-of-band exchange record (`OutOfBandRecord`).  Exactly one
of the two invitation variants is expected to be set. -/
structure OutOfBandRecord where
  id : String
  role : OutOfBandRole
  state : OutOfBandState
  outOfBandInvitation : Option OutOfBandInvitation
  v2OutOfBandInvitation : Option V2OutOfBandInvitation
  mediatorId : Option String
  reusable : Bool
  deriving DecidableEq, Repr

/-- Modelled from the spec: the `invitationId` tag of a persisted record, used
by the reception-path deduplication query (`findAllByQuery {invitationId, role}`);
it is the identity of whichever invitation variant the record holds. -/
def OutOfBandRecord.invitationTag (r : OutOfBandRecord) : Option String :=
  match r.outOfBandInvitation with
  | some inv => some inv.id
  | none => r.v2OutOfBandInvitation.map (fun v2 => v2.id)

/-- A handshake-reuse-accepted event as observed on the event stream, stamped
with its arrival time (milliseconds after the wait was registered). -/
structure ReuseEvent where
  time : Nat
  contextCorrelationId : String
  reuseThreadId : String
  outOfBandRecordId : String
  connectionRecordId : String
  deriving DecidableEq, Repr

/-- Errors raised by the embedded operations (`AriesFrameworkError` sites,
one constructor per distinct message). -/
inductive AriesError
  | handshakeOrMessagesRequired
  | handshakeFalseWithProtocols
  | multiUseWithMessages
  | handshakeProtocolsNotSupported
  | noHandshakeProtocolSupported
  | duplicateInvitation (invitationId : String)
  | noMessageSupported
  | noServices
  | noKeyProvider (keyType : String)
  deriving DecidableEq, Repr

/-- Externally visible actions performed by the out-of-band engine; traces of
these model the side effects of the source methods. -/
inductive OobAction
  | updateState (recordId : String) (state : OutOfBandState)
  | v2AcceptInvitation (invitationId : String)
  | sendReuseMessage (connectionId : String)
  | createConnection (protocol : String)
  | emitMessageWithConnection (connectionId : String) (message : PlaintextMessage)
  | emitMessageWithServices (message : PlaintextMessage)
  | registerReadyWait (connectionId : String) (timeoutMs : Nat)
  | saveRecord (recordId : String)
  | removeRouting (mediatorId : String)
  | deleteRecord (recordId : String)
  deriving DecidableEq, Repr

/-- The ambient collaborators of `OutOfBandApi`, modelled as data.  Function
fields stand for query interfaces of external services; `reuseEvents` is the
time-ordered stream observed by the reuse sub-protocol wait. -/
structure Env where
  contextCorrelationId : String
  supportedMessageTypes : List String
  supportsIncomingMessageType : String → String → Bool
  allSupportedProtocols : List String
  connectionsByInvitationDid : String → List ConnectionRecord
  relatedConnectionsByOutOfBandId : String → List ConnectionRecord
  reuseEvents : List ReuseEvent
  reuseThreadId : String
  createdConnection : ConnectionRecord
  v2AcceptResult : Option ConnectionRecord
  newRecordId : String
  newInvitationId : String
  createServices : List String
  routingMediatorId : Option String

/-- The two handshake message families, in the agent's canonical preference
order (`handshakeMessageFamilies` in `getSupportedHandshakeProtocols`). -/
def handshakeMessageFamilies : List String :=
  ["https://didcomm.org/didexchange", "https://didcomm.org/connections"]

/-- The default handshake protocol used by `receiveImplicitInvitation`
(`HandshakeProtocol.DidExchange`). -/
def didExchangeProtocol : String := "https://didcomm.org/didexchange/1.0"

/-- JavaScript `String.prototype.startsWith`, computed on the character
lists so that it evaluates inside the kernel. -/
def strStartsWith (s pre : String) : Bool :=
  pre.data.isPrefixOf s.data

/-- Modelled from the spec: the message-handler registry's
`filterSupportedProtocolsByMessageFamilies` (declared outside the shown
source) keeps the locally supported protocol identifiers that fall in one of
the given message families. -/
def filterSupportedProtocolsByMessageFamilies (env : Env) (families : List String) : List String :=
  env.allSupportedProtocols.filter (fun p => families.any (fun f => strStartsWith p f))

/-- `getSupportedHandshakeProtocols`, generalised over the family list so that
the influence of the canonical family order can be stated. -/
def getSupportedHandshakeProtocolsWith (env : Env) (families : List String) :
    Except AriesError (List String) :=
  let handshakeProtocols := filterSupportedProtocolsByMessageFamilies env families
  if handshakeProtocols.isEmpty then .error .noHandshakeProtocolSupported
  else .ok (families.filterMap (fun f => handshakeProtocols.find? (fun p => strStartsWith p f)))

/-- `OutOfBandApi.getSupportedHandshakeProtocols`: the locally supported
handshake protocols ordered by the canonical family order; fails when the
registry yields none. -/
def getSupportedHandshakeProtocols (env : Env) : Except AriesError (List String) :=
  getSupportedHandshakeProtocolsWith env handshakeMessageFamilies

/-- `OutOfBandApi.getFirstSupportedProtocol`, generalised over the family list. -/
def getFirstSupportedProtocolWith (env : Env) (families : List String)
    (handshakeProtocols : List String) : Except AriesError String :=
  match getSupportedHandshakeProtocolsWith env families with
  | .error e => .error e
  | .ok supportedProtocols =>
    match handshakeProtocols.find? (fun p => decide (p ∈ supportedProtocols)) with
    | some p => .ok p
    | none => .error .handshakeProtocolsNotSupported

/-- `OutOfBandApi.getFirstSupportedProtocol`: first entry of the invitation's
list that the agent supports. -/
def getFirstSupportedProtocol (env : Env) (handshakeProtocols : List String) :
    Except AriesError String :=
  getFirstSupportedProtocolWith env handshakeMessageFamilies handshakeProtocols

/-- `OutOfBandApi.areHandshakeProtocolsSupported` (propagating the registry
failure of `getSupportedHandshakeProtocols`). -/
def areHandshakeProtocolsSupported (env : Env) (handshakeProtocols : List String) :
    Except AriesError Bool :=
  match getSupportedHandshakeProtocols env with
  | .error e => .error e
  | .ok supportedProtocols =>
    .ok (handshakeProtocols.all (fun p => decide (p ∈ supportedProtocols)))

/-- `OutOfBandApi.assertHandshakeProtocols`. -/
def assertHandshakeProtocols (env : Env) (handshakeProtocols : List String) :
    Except AriesError Unit :=
  match areHandshakeProtocolsSupported env handshakeProtocols with
  | .error e => .error e
  | .ok true => .ok ()
  | .ok false => .error .handshakeProtocolsNotSupported

/-- `OutOfBandApi.findExistingConnection`: iterates the invitation-derived
DIDs but returns inside the first loop iteration in all three branches
(one match, several matches, none). -/
def findExistingConnection (findByInvitationDid : String → List ConnectionRecord) :
    List String → Option ConnectionRecord
  | [] => none
  | invitationDid :: _ =>
    let connections := findByInvitationDid invitationDid
    if connections.length = 1 then connections.head?
    else if 1 < connections.length then connections.head?
    else none

/-- Whether the agent supports a message's type: some entry of the registry's
supported message types accepts it (the `supportedMessageTypes.find` test of
`emitWithConnection`/`emitWithServices`). -/
def msgSupported (env : Env) (m : PlaintextMessage) : Bool :=
  (env.supportedMessageTypes.find? (fun t => env.supportsIncomingMessageType m.msgType t)).isSome

/-- The `messages.find` step shared by `emitWithConnection` and
`emitWithServices`: the first attached message whose type the agent supports. -/
def findSupportedMessage (env : Env) (messages : List PlaintextMessage) :
    Option PlaintextMessage :=
  messages.find? (fun m => msgSupported env m)

/-- `OutOfBandApi.emitWithConnection`. -/
def emitWithConnection (env : Env) (connectionRecord : ConnectionRecord)
    (messages : List PlaintextMessage) : List OobAction × Except AriesError Unit :=
  match findSupportedMessage env messages with
  | some m => ([OobAction.emitMessageWithConnection connectionRecord.id m], .ok ())
  | none => ([], .error .noMessageSupported)

/-- `OutOfBandApi.emitWithServices`. -/
def emitWithServices (env : Env) (services : List String)
    (messages : List PlaintextMessage) : List OobAction × Except AriesError Unit :=
  if services.isEmpty then ([], .error .noServices)
  else
    match findSupportedMessage env messages with
    | some m => ([OobAction.emitMessageWithServices m], .ok ())
    | none => ([], .error .noMessageSupported)

/-- Outcome of the reuse sub-protocol wait: the event stream filtered by
context correlation, the first event matching thread, record and connection
identity, accepted when it arrived within the fixed 15000 ms timeout
(the rxjs `first`/`timeout(15000)`/`catchError(of false)` pipeline of
`handleHandshakeReuse`). -/
def reuseAcceptedWithinTimeout (env : Env) (outOfBandRecordId connectionRecordId : String) :
    Bool :=
  let filtered :=
    env.reuseEvents.filter (fun e => decide (e.contextCorrelationId = env.contextCorrelationId))
  match filtered.find? (fun e =>
      decide (e.reuseThreadId = env.reuseThreadId ∧
        e.outOfBandRecordId = outOfBandRecordId ∧
        e.connectionRecordId = connectionRecordId)) with
  | some e => decide (e.time ≤ 15000)
  | none => false

/-- `OutOfBandApi.handleHandshakeReuse`: sends the reuse message on the
existing connection and resolves to the boolean wait outcome; it never
raises. -/
def handleHandshakeReuse (env : Env) (outOfBandRecord : OutOfBandRecord)
    (connectionRecord : ConnectionRecord) : Bool × List OobAction :=
  (reuseAcceptedWithinTimeout env outOfBandRecord.id connectionRecord.id,
   [OobAction.sendReuseMessage connectionRecord.id])

/-- Result of `acceptInvitation`: the (state-updated) record and the chosen or
created connection, if any. -/
structure AcceptResult where
  outOfBandRecord : OutOfBandRecord
  connectionRecord : Option ConnectionRecord
  deriving DecidableEq, Repr

/-- Configuration of `acceptInvitation` (the fields that influence control
flow; label/alias/image/routing are passed through to collaborators and
elided). -/
structure AcceptConfig where
  reuseConnection : Bool
  timeoutMs : Option Nat
  deriving DecidableEq, Repr

/-- Step 4.3.c of acceptance: once a connection is chosen and requests are
attached, deliver synchronously when the connection is already ready,
otherwise register the single bounded ready-wait
(`returnWhenIsConnected` with the accept timeout). -/
def deliverRequestMessages (env : Env) (timeoutMs : Nat) (connectionRecord : ConnectionRecord)
    (messages : Option (List PlaintextMessage)) : List OobAction × Except AriesError Unit :=
  match messages with
  | none => ([], .ok ())
  | some msgs =>
    if connectionRecord.isReady then emitWithConnection env connectionRecord msgs
    else ([OobAction.registerReadyWait connectionRecord.id timeoutMs], .ok ())

/-- `OutOfBandApi.acceptInvitation` as a pure function from the stored record,
the configuration and the environment to the action trace and the outcome.
Routing resolution (caller-supplied or metadata-stashed) is elided: it does
not influence any branch below.  Note that the v2 branch returns before the
state update, and that the `handshakeProtocols` branch is entered whenever the
attribute is present — including when it is an empty list, mirroring
JavaScript truthiness of `[]`. -/
def acceptInvitation (env : Env) (record : OutOfBandRecord) (config : AcceptConfig) :
    List OobAction × Except AriesError AcceptResult :=
  match record.v2OutOfBandInvitation with
  | some v2inv =>
    ([OobAction.v2AcceptInvitation v2inv.id], .ok ⟨record, env.v2AcceptResult⟩)
  | none =>
    match record.outOfBandInvitation with
    | none => ([], .ok ⟨record, none⟩)
    | some inv =>
      let services := inv.services
      let messages := inv.requests
      let timeoutMs := config.timeoutMs.getD 20000
      let existingConnection := findExistingConnection env.connectionsByInvitationDid inv.invitationDids
      let record' := { record with state := OutOfBandState.PrepareResponse }
      let trace0 := [OobAction.updateState record.id OutOfBandState.PrepareResponse]
      match inv.handshakeProtocols with
      | some handshakeProtocols =>
        let reuseStep : List OobAction × Option ConnectionRecord :=
          match existingConnection, config.reuseConnection, messages with
          | some conn, true, none =>
            let r := handleHandshakeReuse env record' conn
            (r.2, if r.1 then some conn else none)
          | some conn, true, some _ => ([], some conn)
          | _, _, _ => ([], none)
        match reuseStep.2 with
        | some conn =>
          let d := deliverRequestMessages env timeoutMs conn messages
          (trace0 ++ reuseStep.1 ++ d.1, d.2.map (fun _ => ⟨record', some conn⟩))
        | none =>
          match getFirstSupportedProtocol env handshakeProtocols with
          | .error e => (trace0 ++ reuseStep.1, .error e)
          | .ok protocol =>
            let conn := env.createdConnection
            let d := deliverRequestMessages env timeoutMs conn messages
            (trace0 ++ reuseStep.1 ++ OobAction.createConnection protocol :: d.1,
             d.2.map (fun _ => ⟨record', some conn⟩))
      | none =>
        match messages with
        | some msgs =>
          match existingConnection with
          | some conn =>
            let d := emitWithConnection env conn msgs
            (trace0 ++ d.1, d.2.map (fun _ => ⟨record', none⟩))
          | none =>
            let d := emitWithServices env services msgs
            (trace0 ++ d.1, d.2.map (fun _ => ⟨record', none⟩))
        | none => (trace0, .ok ⟨record', none⟩)

/-- v1 creation configuration (`CreateV11OutOfBandInvitationConfig`, the fields
that influence validation and the persisted record). -/
structure CreateV1Config where
  handshake : Option Bool
  handshakeProtocols : Option (List String)
  messages : Option (List PlaintextMessage)
  multiUseInvitation : Option Bool
  deriving DecidableEq, Repr

/-- Whether a v1 creation config carries attached messages after the source's
normalisation (an empty `messages` array is treated as absent). -/
def hasMessages (cfg : CreateV1Config) : Bool :=
  match cfg.messages with
  | some ms => decide (0 < ms.length)
  | none => false

/-- The source's normalisation of the creation config's `messages`: an empty
array is not treated as messages being provided. -/
def normalizedMessages (cfg : CreateV1Config) : Option (List PlaintextMessage) :=
  match cfg.messages with
  | some ms => if 0 < ms.length then some ms else none
  | none => none

/-- Creation configuration: v1 fields or the v2 discriminant. -/
inductive CreateConfig
  | v1 (cfg : CreateV1Config)
  | v2
  deriving DecidableEq, Repr

/-- `OutOfBandApi.createInvitation`.  The v2 branch performs no validation.
The v1 branch runs the three configuration checks, then determines the
invitation's handshake-protocol list (asserting a caller-supplied list against
the supported set, or falling back to the canonical supported list), and
returns the record that is then persisted.  Routing resolution and the service
construction per endpoint are elided into `env.createServices`. -/
def createInvitation (env : Env) : CreateConfig → Except AriesError OutOfBandRecord
  | .v2 =>
    .ok { id := env.newRecordId, role := .Sender, state := .AwaitResponse,
          outOfBandInvitation := none,
          v2OutOfBandInvitation := some { id := env.newInvitationId },
          mediatorId := none, reusable := false }
  | .v1 cfg =>
    let multiUseInvitation := cfg.multiUseInvitation.getD false
    let handshake := cfg.handshake.getD true
    let customHandshakeProtocols := cfg.handshakeProtocols
    let messages := normalizedMessages cfg
    if handshake = false ∧ messages.isNone then .error .handshakeOrMessagesRequired
    else if handshake = false ∧ customHandshakeProtocols.isSome then
      .error .handshakeFalseWithProtocols
    else if messages.isSome ∧ multiUseInvitation = true then .error .multiUseWithMessages
    else
      let handshakeProtocolsResult : Except AriesError (Option (List String)) :=
        if handshake then
          match customHandshakeProtocols with
          | some custom =>
            match assertHandshakeProtocols env custom with
            | .error e => .error e
            | .ok _ => .ok (some custom)
          | none =>
            match getSupportedHandshakeProtocols env with
            | .error e => .error e
            | .ok supported => .ok (some supported)
        else .ok none
      match handshakeProtocolsResult with
      | .error e => .error e
      | .ok handshakeProtocols =>
        .ok { id := env.newRecordId, role := .Sender, state := .AwaitResponse,
              outOfBandInvitation := some
                { id := env.newInvitationId,
                  handshakeProtocols := handshakeProtocols,
                  requests := messages,
                  services := env.createServices,
                  invitationDids := env.createServices },
              v2OutOfBandInvitation := none,
              mediatorId := env.routingMediatorId,
              reusable := multiUseInvitation }

/-- Reception configuration (`BaseReceiveOutOfBandInvitationConfig`). -/
structure ReceiveConfig where
  autoAcceptInvitation : Option Bool
  autoAcceptConnection : Option Bool
  reuseConnection : Option Bool
  acceptInvitationTimeoutMs : Option Nat
  isImplicit : Bool
  deriving DecidableEq, Repr

/-- An inbound invitation in either protocol generation (legacy invitations
are converted to v1 before this point). -/
inductive InboundInvitation
  | v1 (inv : OutOfBandInvitation)
  | v2 (inv : V2OutOfBandInvitation)
  deriving DecidableEq, Repr

/-- Result of reception: the record store after the call, the action trace and
the outcome. -/
structure ReceiveOutcome where
  store : List OutOfBandRecord
  actions : List OobAction
  result : Except AriesError (OutOfBandRecord × Option ConnectionRecord)

/-- `OutOfBandApi._receiveInvitation` over an explicit record store: v1
validation, the duplicate check (skipped for implicit invitations), persisting
the receiver record, and the auto-accept cascade into `acceptInvitation`.
Recipient-key resolution and routing-metadata capture are elided: they do not
influence the embedded control flow. -/
def receiveInvitationInternal (env : Env) (store : List OutOfBandRecord) (newRecordId : String)
    (invitation : InboundInvitation) (config : ReceiveConfig) : ReceiveOutcome :=
  let autoAcceptInvitation := config.autoAcceptInvitation.getD true
  let reuseConnection := config.reuseConnection.getD false
  match invitation with
  | .v2 v2inv =>
    let record : OutOfBandRecord :=
      { id := newRecordId, role := .Receiver, state := .Initial,
        outOfBandInvitation := none, v2OutOfBandInvitation := some v2inv,
        mediatorId := none, reusable := false }
    let store' := store ++ [record]
    if autoAcceptInvitation then
      let accepted := acceptInvitation env record
        { reuseConnection := reuseConnection, timeoutMs := config.acceptInvitationTimeoutMs }
      { store := store', actions := OobAction.saveRecord record.id :: accepted.1,
        result := accepted.2.map (fun r => (r.outOfBandRecord, r.connectionRecord)) }
    else
      { store := store', actions := [OobAction.saveRecord record.id], result := .ok (record, none) }
  | .v1 inv =>
    if (inv.handshakeProtocols.getD []).isEmpty ∧ (inv.requests.getD []).isEmpty then
      { store := store, actions := [], result := .error .handshakeOrMessagesRequired }
    else if config.isImplicit = false ∧
        store.any (fun r =>
          decide (r.invitationTag = some inv.id ∧ r.role = OutOfBandRole.Receiver)) then
      { store := store, actions := [], result := .error (.duplicateInvitation inv.id) }
    else
      let record : OutOfBandRecord :=
        { id := newRecordId, role := .Receiver, state := .Initial,
          outOfBandInvitation := some inv, v2OutOfBandInvitation := none,
          mediatorId := none, reusable := false }
      let store' := store ++ [record]
      if autoAcceptInvitation then
        let accepted := acceptInvitation env record
          { reuseConnection := reuseConnection, timeoutMs := config.acceptInvitationTimeoutMs }
        { store := store', actions := OobAction.saveRecord record.id :: accepted.1,
          result := accepted.2.map (fun r => (r.outOfBandRecord, r.connectionRecord)) }
      else
        { store := store', actions := [OobAction.saveRecord record.id], result := .ok (record, none) }

/-- `OutOfBandApi.receiveImplicitInvitation`: synthesises a single-service v1
invitation from the public DID and follows the reception path marked
implicit (the implicit config has no reuse preference). -/
def receiveImplicitInvitation (env : Env) (store : List OutOfBandRecord) (newRecordId : String)
    (did : String) (handshakeProtocols : Option (List String)) (config : ReceiveConfig) :
    ReceiveOutcome :=
  let invitation : OutOfBandInvitation :=
    { id := did,
      handshakeProtocols := some (handshakeProtocols.getD [didExchangeProtocol]),
      requests := none,
      services := [did],
      invitationDids := [did] }
  receiveInvitationInternal env store newRecordId (.v1 invitation)
    { config with isImplicit := true, reuseConnection := none }

/-- `OutOfBandApi.deleteById`: releases mediator-held routing keys exactly when
the record has a mediator and either no dependent connection exists or the
record is reusable; the record itself is always deleted. -/
def deleteById (env : Env) (record : OutOfBandRecord) : List OobAction :=
  let relatedConnections := env.relatedConnectionsByOutOfBandId record.id
  (match record.mediatorId with
   | some mediatorId =>
     if relatedConnections.length = 0 ∨ record.reusable = true then
       [OobAction.removeRouting mediatorId]
     else []
   | none => []) ++ [OobAction.deleteRecord record.id]

/-- A registered signing provider: its key type is all that the registry
consults. -/
structure SigningProvider where
  name : String
  keyType : String
  deriving DecidableEq, Repr

/-- The flat signing-provider registry (`SigningProviderRegistry`). -/
structure SigningProviderRegistry where
  signingProviders : List SigningProvider
  deriving DecidableEq, Repr

/-- The dependency-injection input of the registry constructor: either the
placeholder `'default'` token or an actual provider. -/
inductive InjectedSigningProvider
  | defaultToken
  | provider (p : SigningProvider)
  deriving DecidableEq, Repr

/-- The registry constructor: filters out the `'default'` placeholder. -/
def mkSigningProviderRegistry (injected : List InjectedSigningProvider) :
    SigningProviderRegistry :=
  { signingProviders := injected.filterMap (fun i =>
      match i with
      | .defaultToken => none
      | .provider p => some p) }

/-- `SigningProviderRegistry.hasProviderForKeyType`. -/
def SigningProviderRegistry.hasProviderForKeyType (reg : SigningProviderRegistry)
    (keyType : String) : Bool :=
  (reg.signingProviders.find? (fun x => decide (x.keyType = keyType))).isSome

/-- `SigningProviderRegistry.getProviderForKeyType`. -/
def SigningProviderRegistry.getProviderForKeyType (reg : SigningProviderRegistry)
    (keyType : String) : Except AriesError SigningProvider :=
  match reg.signingProviders.find? (fun x => decide (x.keyType = keyType)) with
  | some p => .ok p
  | none => .error (.noKeyProvider keyType)

/-- Insertion-ordered deduplication, the behaviour of
`Array.from(new Set(...))`: keeps the first occurrence of each element. -/
def dedupKeepFirst : List String → List String
  | [] => []
  | x :: xs => x :: dedupKeepFirst (xs.filter (fun y => decide (y ≠ x)))
termination_by l => l.length
decreasing_by
  simp only [List.length_cons]
  exact Nat.lt_succ_of_le (List.length_filter_le _ _)

/-- `SigningProviderRegistry.supportedKeyTypes`. -/
def SigningProviderRegistry.supportedKeyTypes (reg : SigningProviderRegistry) : List String :=
  dedupKeepFirst (reg.signingProviders.map (fun p => p.keyType))

/-- The connections-protocol identifier (`HandshakeProtocol.Connections`). -/
def connectionsProtocol : String := "https://didcomm.org/connections/1.0"

/-- A message type the sample environment supports. -/
def sampleMessage : PlaintextMessage := { msgType := "https://didcomm.org/credfam/1.0/offer" }

/-- A message type the sample environment does not support. -/
def unsupportedMessage : PlaintextMessage := { msgType := "https://didcomm.org/other/1.0/thing" }

/-- An existing, ready connection used by the concrete scenarios. -/
def connExisting : ConnectionRecord := { id := "conn-exist", isReady := true }

/-- Baseline concrete environment for the witness scenarios. -/
def envBase : Env :=
  { contextCorrelationId := "ctx"
    supportedMessageTypes := ["https://didcomm.org/credfam/1.0/offer"]
    supportsIncomingMessageType := fun a b => decide (a = b)
    allSupportedProtocols := [didExchangeProtocol, connectionsProtocol]
    connectionsByInvitationDid := fun _ => []
    relatedConnectionsByOutOfBandId := fun _ => []
    reuseEvents := []
    reuseThreadId := "thread-1"
    createdConnection := { id := "conn-new", isReady := false }
    v2AcceptResult := none
    newRecordId := "rec-new"
    newInvitationId := "inv-new"
    createServices := ["did:example:svc"]
    routingMediatorId := none }

/-- Environment with an existing connection reachable from `did:peer:ex` and a
matching reuse-accepted event arriving at 1000 ms. -/
def envReuse : Env :=
  { envBase with
    connectionsByInvitationDid := fun d => if d = "did:peer:ex" then [connExisting] else []
    reuseEvents := [{ time := 1000, contextCorrelationId := "ctx", reuseThreadId := "thread-1",
                      outOfBandRecordId := "rec-1", connectionRecordId := "conn-exist" }] }

/-- Environment whose connection collaborator returns an already-ready new
connection. -/
def envReadyCreate : Env :=
  { envBase with createdConnection := { id := "conn-new", isReady := true } }

/-- A v1 invitation with one handshake protocol and no attached requests. -/
def invV1Basic : OutOfBandInvitation :=
  { id := "inv-1", handshakeProtocols := some [didExchangeProtocol], requests := none,
    services := ["did:peer:ex"], invitationDids := ["did:peer:ex"] }

/-- Receiver record holding `invV1Basic`. -/
def recV1Basic : OutOfBandRecord :=
  { id := "rec-1", role := .Receiver, state := .Initial,
    outOfBandInvitation := some invV1Basic, v2OutOfBandInvitation := none,
    mediatorId := none, reusable := false }

/-- A v1 invitation with a handshake protocol and one attached request. -/
def invWithRequest : OutOfBandInvitation :=
  { id := "inv-3", handshakeProtocols := some [didExchangeProtocol],
    requests := some [sampleMessage],
    services := ["did:example:svc"], invitationDids := [] }

/-- Receiver record holding `invWithRequest`. -/
def recWithRequest : OutOfBandRecord :=
  { id := "rec-3", role := .Receiver, state := .Initial,
    outOfBandInvitation := some invWithRequest, v2OutOfBandInvitation := none,
    mediatorId := none, reusable := false }

/-- A connectionless v1 invitation: no handshake-protocol attribute, one
attached request. -/
def invConnectionless : OutOfBandInvitation :=
  { id := "inv-4", handshakeProtocols := none, requests := some [sampleMessage],
    services := ["did:example:svc"], invitationDids := [] }

/-- Receiver record holding `invConnectionless`. -/
def recConnectionless : OutOfBandRecord :=
  { id := "rec-4", role := .Receiver, state := .Initial,
    outOfBandInvitation := some invConnectionless, v2OutOfBandInvitation := none,
    mediatorId := none, reusable := false }

/-- A v1 invitation whose handshake-protocol attribute is present but an empty
list, with one attached request. -/
def invEmptyHandshakeList : OutOfBandInvitation :=
  { id := "inv-5", handshakeProtocols := some [], requests := some [sampleMessage],
    services := ["did:example:svc"], invitationDids := [] }

/-- Receiver record holding `invEmptyHandshakeList`. -/
def recEmptyHandshakeList : OutOfBandRecord :=
  { id := "rec-5", role := .Receiver, state := .Initial,
    outOfBandInvitation := some invEmptyHandshakeList, v2OutOfBandInvitation := none,
    mediatorId := none, reusable := false }

/-- Receiver record holding a v2 invitation. -/
def recV2W : OutOfBandRecord :=
  { id := "rec-2", role := .Receiver, state := .Initial,
    outOfBandInvitation := none, v2OutOfBandInvitation := some { id := "inv-2" },
    mediatorId := none, reusable := false }

/-- Acceptance configuration with defaults. -/
def cfgDefault : AcceptConfig := { reuseConnection := false, timeoutMs := none }

/-- Acceptance configuration requesting connection reuse. -/
def cfgReuse : AcceptConfig := { reuseConnection := true, timeoutMs := none }

/-- Reception configuration that disables the auto-accept cascade. -/
def rcvCfgNoAccept : ReceiveConfig :=
  { autoAcceptInvitation := some false, autoAcceptConnection := none,
    reuseConnection := none, acceptInvitationTimeoutMs := none, isImplicit := false }

/-- Concrete signing-provider registry with one ed25519 provider. -/
def regW : SigningProviderRegistry :=
  mkSigningProviderRegistry [.defaultToken, .provider { name := "p1", keyType := "ed25519" }]

/-- The canonically ordered locally supported handshake protocols, the value
`getSupportedHandshakeProtocols` returns when the registry is non-trivial. -/
def orderedSupportedProtocols (env : Env) : List String :=
  handshakeMessageFamilies.filterMap (fun f =>
    (filterSupportedProtocolsByMessageFamilies env handshakeMessageFamilies).find?
      (fun p => strStartsWith p f))

/-- The receiver record `_receiveInvitation` persists for a v1 invitation. -/
def mkReceiverRecord (newRecordId : String) (inv : OutOfBandInvitation) : OutOfBandRecord :=
  { id := newRecordId, role := .Receiver, state := .Initial,
    outOfBandInvitation := some inv, v2OutOfBandInvitation := none,
    mediatorId := none, reusable := false }

/-- The synthetic v1 invitation `receiveImplicitInvitation` builds from a
public DID. -/
def implicitInvitation (did : String) (handshakeProtocols : Option (List String)) :
    OutOfBandInvitation :=
  { id := did, handshakeProtocols := some (handshakeProtocols.getD [didExchangeProtocol]),
    requests := none, services := [did], invitationDids := [did] }

/-- The configuration the implicit reception path hands to the internal
receive method. -/
def implicitConfig (config : ReceiveConfig) : ReceiveConfig :=
  { config with isImplicit := true, reuseConnection := none }

/-- The receiver record `_receiveInvitation` persists for a v2 invitation. -/
def mkV2ReceiverRecord (newRecordId : String) (v2inv : V2OutOfBandInvitation) :
    OutOfBandRecord :=
  { id := newRecordId, role := .Receiver, state := .Initial,
    outOfBandInvitation := none, v2OutOfBandInvitation := some v2inv,
    mediatorId := none, reusable := false }

/-! ### Helper lemmas -/

theorem filter_find?_comm {α : Type} (q p : α → Bool) (l : List α) :
    (l.filter q).find? p = l.find? (fun x => q x && p x) := by
  induction l with
  | nil => rfl
  | cons x xs ih =>
    by_cases hq : q x
    · simp [List.filter_cons, hq, List.find?_cons, ih]
    · simp only [List.filter_cons, List.find?_cons]
      simp only [Bool.not_eq_true] at hq
      simp [hq, ih]

theorem perm_any {α : Type} (f : α → Bool) {l₁ l₂ : List α} (h : l₁.Perm l₂) :
    l₁.any f = l₂.any f := by
  induction h with
  | nil => rfl
  | cons x _ ih => simp [List.any_cons, ih]
  | swap x y l =>
    simp only [List.any_cons]
    rw [← Bool.or_assoc, ← Bool.or_assoc, Bool.or_comm (f y) (f x)]
  | trans _ _ ih₁ ih₂ => exact ih₁.trans ih₂

theorem find?_min_of_pairwise {α : Type} (measure : α → Nat) (p : α → Bool) :
    ∀ (l : List α), l.Pairwise (fun a b => measure a ≤ measure b) →
      ∀ a, l.find? p = some a → ∀ b ∈ l, p b = true → measure a ≤ measure b := by
  intro l
  induction l with
  | nil => intro _ a h; cases h
  | cons x xs ih =>
    intro hpw a hfind b hb hpb
    rw [List.find?_cons] at hfind
    cases hx : p x with
    | true =>
      rw [hx] at hfind
      simp only at hfind
      injection hfind with h
      subst h
      rcases List.mem_cons.mp hb with rfl | hb'
      · exact le_refl _
      · exact (List.pairwise_cons.mp hpw).1 b hb'
    | false =>
      rw [hx] at hfind
      simp only at hfind
      rcases List.mem_cons.mp hb with rfl | hb'
      · rw [hx] at hpb; cases hpb
      · exact ih (List.Pairwise.of_cons hpw) a hfind b hb' hpb

theorem find?_of_decomp {α : Type} (f : α → Bool) (pre : List α) (a : α) (post : List α)
    (hpre : ∀ q ∈ pre, f q = false) (ha : f a = true) :
    (pre ++ a :: post).find? f = some a := by
  refine List.find?_eq_some.mpr ⟨ha, pre, post, rfl, ?_⟩
  intro q hq
  rw [hpre q hq]
  rfl

theorem mem_dedupKeepFirst (a : String) :
    ∀ (l : List String), a ∈ dedupKeepFirst l ↔ a ∈ l
  | [] => by simp [dedupKeepFirst]
  | x :: xs => by
    rw [dedupKeepFirst]
    have ih := mem_dedupKeepFirst a (xs.filter (fun y => decide (y ≠ x)))
    rw [List.mem_cons, ih, List.mem_filter, List.mem_cons]
    by_cases hax : a = x
    · subst hax; simp
    · simp [hax]
termination_by l => l.length
decreasing_by
  simp only [List.length_cons]
  exact Nat.lt_succ_of_le (List.length_filter_le _ _)

theorem reuseAccepted_iff (env : Env) (oobId connId : String)
    (hsorted : env.reuseEvents.Pairwise (fun a b => a.time ≤ b.time)) :
    reuseAcceptedWithinTimeout env oobId connId = true ↔
      ∃ e ∈ env.reuseEvents, e.contextCorrelationId = env.contextCorrelationId ∧
        e.reuseThreadId = env.reuseThreadId ∧ e.outOfBandRecordId = oobId ∧
        e.connectionRecordId = connId ∧ e.time ≤ 15000 := by
  simp only [reuseAcceptedWithinTimeout]
  constructor
  · intro h
    rcases hf : (env.reuseEvents.filter
        (fun e => decide (e.contextCorrelationId = env.contextCorrelationId))).find?
        (fun e => decide (e.reuseThreadId = env.reuseThreadId ∧
          e.outOfBandRecordId = oobId ∧ e.connectionRecordId = connId)) with _ | e
    · rw [hf] at h; cases h
    · rw [hf] at h
      have he := List.mem_of_find?_eq_some hf
      have hctx : e.contextCorrelationId = env.contextCorrelationId :=
        of_decide_eq_true (List.mem_filter.mp he).2
      have hmem : e ∈ env.reuseEvents := (List.mem_filter.mp he).1
      have hp := List.find?_some hf
      simp only [decide_eq_true_eq] at hp
      obtain ⟨h1, h2, h3⟩ := hp
      exact ⟨e, hmem, hctx, h1, h2, h3, of_decide_eq_true h⟩
  · rintro ⟨e, hmem, hctx, h1, h2, h3, htime⟩
    have hef : e ∈ env.reuseEvents.filter
        (fun e => decide (e.contextCorrelationId = env.contextCorrelationId)) :=
      List.mem_filter.mpr ⟨hmem, decide_eq_true hctx⟩
    have hsome : ((env.reuseEvents.filter
        (fun e => decide (e.contextCorrelationId = env.contextCorrelationId))).find?
        (fun e => decide (e.reuseThreadId = env.reuseThreadId ∧
          e.outOfBandRecordId = oobId ∧ e.connectionRecordId = connId))).isSome :=
      List.find?_isSome.mpr ⟨e, hef, decide_eq_true ⟨h1, h2, h3⟩⟩
    rcases hf : (env.reuseEvents.filter
        (fun e => decide (e.contextCorrelationId = env.contextCorrelationId))).find?
        (fun e => decide (e.reuseThreadId = env.reuseThreadId ∧
          e.outOfBandRecordId = oobId ∧ e.connectionRecordId = connId)) with _ | e'
    · rw [hf] at hsome; cases hsome
    · rw [hf]
      have hpw := hsorted.filter
        (fun e => decide (e.contextCorrelationId = env.contextCorrelationId))
      have hle := find?_min_of_pairwise (fun e => e.time) _ _ hpw e' hf e hef
        (decide_eq_true ⟨h1, h2, h3⟩)
      exact decide_eq_true (le_trans hle htime)

theorem getSupported_ok_of_nonempty (env : Env)
    (hsup : filterSupportedProtocolsByMessageFamilies env handshakeMessageFamilies ≠ []) :
    getSupportedHandshakeProtocols env = .ok (orderedSupportedProtocols env) := by
  unfold getSupportedHandshakeProtocols getSupportedHandshakeProtocolsWith
    orderedSupportedProtocols
  simp only [List.isEmpty_iff]
  rw [if_neg hsup]

theorem findExistingConnection_head (lookup : String → List ConnectionRecord)
    (d : String) (rest : List String) :
    findExistingConnection lookup (d :: rest) = (lookup d).head? := by
  simp only [findExistingConnection]
  rcases h : lookup d with _ | ⟨c, cs⟩
  · simp
  · rcases cs with _ | ⟨c2, cs2⟩ <;> simp

/-- Claim C9: the existing-relationship lookup consults only the first
invitation-derived identifier: it returns the head of that identifier's
match list (the first match in discovery order, also when several match,
and `none` when there is no match) and never examines later identifiers. -/
theorem findExistingConnection_first_did_only
    (lookup : String → List ConnectionRecord) (d : String) (rest rest' : List String) :
    findExistingConnection lookup (d :: rest) = (lookup d).head? ∧
    findExistingConnection lookup (d :: rest) =
      findExistingConnection lookup (d :: rest') := by
  refine ⟨findExistingConnection_head lookup d rest, ?_⟩
  rw [findExistingConnection_head lookup d rest, findExistingConnection_head lookup d rest']

/-- Claim C10: `getProviderForKeyType` throws exactly when
`hasProviderForKeyType` is false; when the latter is true, it returns a
registered provider of that key type, and the key type is in
`supportedKeyTypes`. -/
theorem signingProviderRegistry_get_iff_has (reg : SigningProviderRegistry) (k : String) :
    ((∃ e, reg.getProviderForKeyType k = .error e) ↔ reg.hasProviderForKeyType k = false) ∧
    (reg.hasProviderForKeyType k = true →
      ∃ p, reg.getProviderForKeyType k = .ok p ∧ p.keyType = k ∧
        p ∈ reg.signingProviders ∧ k ∈ reg.supportedKeyTypes) := by
  constructor
  · unfold SigningProviderRegistry.getProviderForKeyType
      SigningProviderRegistry.hasProviderForKeyType
    rcases h : reg.signingProviders.find? (fun x => decide (x.keyType = k)) with _ | p
    · simp [h]
    · simp [h]
  · intro hhas
    unfold SigningProviderRegistry.hasProviderForKeyType at hhas
    rcases h : reg.signingProviders.find? (fun x => decide (x.keyType = k)) with _ | p
    · rw [h] at hhas; cases hhas
    · have hp := List.find?_some h
      simp only [decide_eq_true_eq] at hp
      have hmem : p ∈ reg.signingProviders := List.mem_of_find?_eq_some h
      refine ⟨p, ?_, hp, hmem, ?_⟩
      · unfold SigningProviderRegistry.getProviderForKeyType
        rw [h]
      · unfold SigningProviderRegistry.supportedKeyTypes
        rw [mem_dedupKeepFirst, ← hp]
        exact List.mem_map_of_mem _ hmem

/-- Witness for C10 at a concrete registry: the ed25519 provider is found and
returned. -/
theorem signingProviderRegistry_get_iff_has_witness :
    regW.hasProviderForKeyType "ed25519" = true ∧
      ∃ p, regW.getProviderForKeyType "ed25519" = .ok p ∧ p.keyType = "ed25519" ∧
        p ∈ regW.signingProviders ∧ "ed25519" ∈ regW.supportedKeyTypes :=
  ⟨by decide, (signingProviderRegistry_get_iff_has regW "ed25519").2 (by decide)⟩

/-- Claim C7: `deleteById` always deletes the record, and releases
mediator-held routing keys exactly when the record has a mediator and either
no dependent connection exists or the record is reusable. -/
theorem deleteById_routing_release (env : Env) (record : OutOfBandRecord) :
    OobAction.deleteRecord record.id ∈ deleteById env record ∧
    ((∃ mid, OobAction.removeRouting mid ∈ deleteById env record) ↔
      ((∃ mid, record.mediatorId = some mid) ∧
        ((env.relatedConnectionsByOutOfBandId record.id).length = 0 ∨
          record.reusable = true))) := by
  simp only [deleteById]
  rcases hm : record.mediatorId with _ | mid
  · simp [hm]
  · by_cases hc : (env.relatedConnectionsByOutOfBandId record.id).length = 0 ∨
        record.reusable = true
    · simp only [hm, if_pos hc]
      simp
      simpa [List.length_eq_zero] using hc
    · simp only [hm, if_neg hc]
      simp
      simpa [not_or, List.length_eq_zero, Bool.not_eq_true] using hc

theorem getFirstWith_empty (env : Env) (fs hs : List String)
    (he : (filterSupportedProtocolsByMessageFamilies env fs).isEmpty = true) :
    getFirstSupportedProtocolWith env fs hs = .error .noHandshakeProtocolSupported := by
  unfold getFirstSupportedProtocolWith getSupportedHandshakeProtocolsWith
  simp only [if_pos he]

theorem getFirstWith_nonempty (env : Env) (fs hs : List String)
    (he : ¬ (filterSupportedProtocolsByMessageFamilies env fs).isEmpty = true) :
    getFirstSupportedProtocolWith env fs hs =
      match hs.find? (fun p => decide (p ∈ fs.filterMap (fun f =>
        (filterSupportedProtocolsByMessageFamilies env fs).find?
          (fun q => strStartsWith q f)))) with
      | some p => .ok p
      | none => .error .handshakeProtocolsNotSupported := by
  unfold getFirstSupportedProtocolWith getSupportedHandshakeProtocolsWith
  simp only [if_neg he]

/-- Claim C6: given the invitation's declared handshake-protocol list, the
selected protocol is the first entry, in the invitation's own order, that is
in the locally supported set; selection fails with the unsupported-protocol
error exactly when no entry is supported; and the canonical family order
never influences the selection (any permutation of it yields the same
result). -/
theorem getFirstSupportedProtocol_spec (env : Env) (hs supported : List String)
    (hok : getSupportedHandshakeProtocols env = .ok supported) :
    (∀ p, getFirstSupportedProtocol env hs = .ok p ↔
      ∃ pre post, hs = pre ++ p :: post ∧ p ∈ supported ∧ ∀ q ∈ pre, q ∉ supported) ∧
    (getFirstSupportedProtocol env hs = .error .handshakeProtocolsNotSupported ↔
      ∀ p ∈ hs, p ∉ supported) ∧
    (∀ families₁ families₂, families₁.Perm families₂ →
      getFirstSupportedProtocolWith env families₁ hs =
        getFirstSupportedProtocolWith env families₂ hs) := by
  have hunfold : getFirstSupportedProtocol env hs =
      match hs.find? (fun p => decide (p ∈ supported)) with
      | some p => .ok p
      | none => .error .handshakeProtocolsNotSupported := by
    unfold getFirstSupportedProtocol getFirstSupportedProtocolWith
    unfold getSupportedHandshakeProtocols at hok
    rw [hok]
  refine ⟨?_, ?_, ?_⟩
  · intro p
    rw [hunfold]
    rcases hf : hs.find? (fun p => decide (p ∈ supported)) with _ | q
    · simp only
      constructor
      · intro h
        exact absurd h (by simp)
      · rintro ⟨pre, post, heq, hp, hpre⟩
        have hfind := find?_of_decomp (fun q => decide (q ∈ supported)) pre p post
          (fun q hq => decide_eq_false (hpre q hq)) (decide_eq_true hp)
        rw [heq, hfind] at hf
        simp at hf
    · simp only [Except.ok.injEq]
      constructor
      · intro h
        subst h
        obtain ⟨hq, pre, post, heq, hpre⟩ := List.find?_eq_some.mp hf
        refine ⟨pre, post, heq, of_decide_eq_true hq, ?_⟩
        intro a ha
        have := hpre a ha
        simp only [Bool.not_eq_true'] at this
        exact of_decide_eq_false this
      · rintro ⟨pre, post, heq, hp, hpre⟩
        have hfind := find?_of_decomp (fun q => decide (q ∈ supported)) pre p post
          (fun q hq => decide_eq_false (hpre q hq)) (decide_eq_true hp)
        rw [heq, hfind] at hf
        injection hf with h
        exact h.symm
  · rw [hunfold]
    rcases hf : hs.find? (fun p => decide (p ∈ supported)) with _ | q
    · simp only
      constructor
      · intro _ p hp hmem
        have := List.find?_eq_none.mp hf p hp
        exact this (decide_eq_true hmem)
      · intro _
        trivial
    · simp only
      constructor
      · intro h
        exact absurd h (by simp)
      · intro hall
        have hq := List.find?_some hf
        have hmem := List.mem_of_find?_eq_some hf
        exact absurd (of_decide_eq_true hq) (hall q hmem)
  · intro fs₁ fs₂ hperm
    have hfil : filterSupportedProtocolsByMessageFamilies env fs₁ =
        filterSupportedProtocolsByMessageFamilies env fs₂ := by
      unfold filterSupportedProtocolsByMessageFamilies
      exact List.filter_congr (fun p _ => perm_any _ hperm)
    by_cases he : (filterSupportedProtocolsByMessageFamilies env fs₂).isEmpty = true
    · rw [getFirstWith_empty env fs₁ hs (by rw [hfil]; exact he),
          getFirstWith_empty env fs₂ hs he]
    · rw [getFirstWith_nonempty env fs₁ hs (by rw [hfil]; exact he),
          getFirstWith_nonempty env fs₂ hs he, hfil]
      have hpred : (fun p => decide (p ∈ fs₁.filterMap (fun f =>
            (filterSupportedProtocolsByMessageFamilies env fs₂).find?
              (fun q => strStartsWith q f)))) =
          (fun p => decide (p ∈ fs₂.filterMap (fun f =>
            (filterSupportedProtocolsByMessageFamilies env fs₂).find?
              (fun q => strStartsWith q f)))) :=
        funext fun p => decide_eq_decide.mpr (hperm.filterMap _).mem_iff
      rw [hpred]

/-- Witness for C6: in the sample environment (supporting both families), the
invitation order wins — with the list `[unknown, connections]` the selected
protocol is the connections protocol, the first supported entry. -/
theorem getFirstSupportedProtocol_spec_witness :
    getSupportedHandshakeProtocols envBase = .ok [didExchangeProtocol, connectionsProtocol] ∧
    getFirstSupportedProtocol envBase
      ["https://didcomm.org/unknownproto/1.0", connectionsProtocol] = .ok connectionsProtocol := by
  refine ⟨by rfl, ?_⟩
  exact ((getFirstSupportedProtocol_spec envBase
      ["https://didcomm.org/unknownproto/1.0", connectionsProtocol]
      [didExchangeProtocol, connectionsProtocol] (by rfl)).1 connectionsProtocol).mpr
    ⟨["https://didcomm.org/unknownproto/1.0"], [], by decide, by decide, by decide⟩

/-- Claim C1 (amended): for records holding a v1 invitation, the state update
to `PrepareResponse` is the first recorded action, preceding reuse handling,
handshake creation and connectionless dispatch; for records holding a v2
invitation the v2 delegation runs without any state update. -/
theorem acceptInvitation_updateState_before_branching (env : Env)
    (record : OutOfBandRecord) (config : AcceptConfig) :
    (∀ inv, record.v2OutOfBandInvitation = none → record.outOfBandInvitation = some inv →
      (acceptInvitation env record config).1.head? =
        some (OobAction.updateState record.id OutOfBandState.PrepareResponse)) ∧
    (∀ v2inv, record.v2OutOfBandInvitation = some v2inv →
      (acceptInvitation env record config).1 = [OobAction.v2AcceptInvitation v2inv.id]) := by
  constructor
  · intro inv h2 h1
    unfold acceptInvitation
    simp only [h2, h1]
    repeat' split
    all_goals simp
  · intro v2inv h2
    unfold acceptInvitation
    simp only [h2]

/-- Witness for the amended C1 at a concrete v1 record. -/
theorem acceptInvitation_updateState_before_branching_witness :
    (acceptInvitation envBase recV1Basic cfgDefault).1.head? =
      some (OobAction.updateState "rec-1" OutOfBandState.PrepareResponse) :=
  (acceptInvitation_updateState_before_branching envBase recV1Basic cfgDefault).1
    invV1Basic (by rfl) (by rfl)

/-- Counterexample to C1 as stated: accepting a record that holds a v2
invitation runs the v2 delegation branch without ever updating the record's
state to `PrepareResponse`. -/
theorem acceptInvitation_v2_skips_prepareResponse :
    (acceptInvitation envBase recV2W cfgDefault).1 =
      [OobAction.v2AcceptInvitation "inv-2"] ∧
    OobAction.updateState "rec-2" OutOfBandState.PrepareResponse ∉
      (acceptInvitation envBase recV2W cfgDefault).1 := by
  constructor
  · rfl
  · decide

/-- Claim C2 (amended): when the handshake-protocol attribute is absent, the
attached-request list is non-empty and no existing relationship is found,
acceptance dispatches exactly the first locally supported message to the
invitation's declared services without creating a relationship, and fails
with the no-acceptable-message-type error when no message is supported.
(When the attribute is present as an empty list, the code instead enters the
handshake branch — see the counterexample.) -/
theorem acceptInvitation_connectionless_dispatch (env : Env) (record : OutOfBandRecord)
    (config : AcceptConfig) (inv : OutOfBandInvitation) (msgs : List PlaintextMessage)
    (h2 : record.v2OutOfBandInvitation = none)
    (h1 : record.outOfBandInvitation = some inv)
    (hH : inv.handshakeProtocols = none)
    (hM : inv.requests = some msgs)
    (hE : findExistingConnection env.connectionsByInvitationDid inv.invitationDids = none)
    (hS : inv.services.isEmpty = false) :
    (∀ pre m post, msgs = pre ++ m :: post →
      (∀ m' ∈ pre, msgSupported env m' = false) → msgSupported env m = true →
      acceptInvitation env record config =
        ([OobAction.updateState record.id OutOfBandState.PrepareResponse,
          OobAction.emitMessageWithServices m],
         .ok ⟨{ record with state := OutOfBandState.PrepareResponse }, none⟩)) ∧
    ((∀ m' ∈ msgs, msgSupported env m' = false) →
      (acceptInvitation env record config).2 = .error .noMessageSupported) := by
  constructor
  · rintro pre m post rfl hpre hm
    unfold acceptInvitation
    simp only [h2, h1, hH, hM, hE]
    unfold emitWithServices
    rw [if_neg (by rw [hS]; exact Bool.false_ne_true)]
    have hfind : findSupportedMessage env (pre ++ m :: post) = some m := by
      unfold findSupportedMessage
      exact find?_of_decomp _ pre m post hpre hm
    rw [hfind]
    simp [Except.map]
  · intro hall
    unfold acceptInvitation
    simp only [h2, h1, hH, hM, hE]
    unfold emitWithServices
    rw [if_neg (by rw [hS]; exact Bool.false_ne_true)]
    have hfind : findSupportedMessage env msgs = none := by
      unfold findSupportedMessage
      exact List.find?_eq_none.mpr (fun m' hm' => by simp [hall m' hm'])
    rw [hfind]
    simp [Except.map]

/-- Witness for the amended C2 at a concrete connectionless invitation. -/
theorem acceptInvitation_connectionless_dispatch_witness :
    acceptInvitation envBase recConnectionless cfgDefault =
      ([OobAction.updateState "rec-4" OutOfBandState.PrepareResponse,
        OobAction.emitMessageWithServices sampleMessage],
       .ok ⟨{ recConnectionless with state := OutOfBandState.PrepareResponse }, none⟩) :=
  (acceptInvitation_connectionless_dispatch envBase recConnectionless cfgDefault
      invConnectionless [sampleMessage] rfl rfl rfl rfl rfl rfl).1
    [] sampleMessage [] rfl (by simp) (by decide)

/-- Counterexample to C2 as stated: with the handshake-protocol attribute
present as an empty list (and a supported attached request, no existing
relationship), acceptance fails with the unsupported-protocol error instead of
dispatching the message to the declared services. -/
theorem acceptInvitation_empty_handshake_list_errors :
    (acceptInvitation envBase recEmptyHandshakeList cfgDefault).2 =
      .error .handshakeProtocolsNotSupported ∧
    msgSupported envBase sampleMessage = true ∧
    OobAction.emitMessageWithServices sampleMessage ∉
      (acceptInvitation envBase recEmptyHandshakeList cfgDefault).1 := by
  refine ⟨by rfl, by decide, by decide⟩

/-- Claim C3: during acceptance with an existing relationship,
`reuseConnection = true` and no attached messages, the reuse sub-protocol
sends the reuse signal and resolves to success exactly when a reuse-accepted
event matching thread identifier, record identity and relationship identity
arrives within 15000 ms; on success acceptance returns the existing
relationship, and on timeout or stream end it resolves to `false` (never an
error) and acceptance creates a new relationship instead. -/
theorem acceptInvitation_reuse_subprotocol (env : Env) (record : OutOfBandRecord)
    (config : AcceptConfig) (inv : OutOfBandInvitation) (hs : List String)
    (conn : ConnectionRecord) (protocol : String)
    (h2 : record.v2OutOfBandInvitation = none)
    (h1 : record.outOfBandInvitation = some inv)
    (hH : inv.handshakeProtocols = some hs)
    (hM : inv.requests = none)
    (hRC : config.reuseConnection = true)
    (hE : findExistingConnection env.connectionsByInvitationDid inv.invitationDids = some conn)
    (hproto : getFirstSupportedProtocol env hs = .ok protocol)
    (hsorted : env.reuseEvents.Pairwise (fun a b => a.time ≤ b.time)) :
    ((reuseAcceptedWithinTimeout env record.id conn.id = true) ↔
      ∃ e ∈ env.reuseEvents, e.contextCorrelationId = env.contextCorrelationId ∧
        e.reuseThreadId = env.reuseThreadId ∧ e.outOfBandRecordId = record.id ∧
        e.connectionRecordId = conn.id ∧ e.time ≤ 15000) ∧
    (reuseAcceptedWithinTimeout env record.id conn.id = true →
      acceptInvitation env record config =
        ([OobAction.updateState record.id OutOfBandState.PrepareResponse,
          OobAction.sendReuseMessage conn.id],
         .ok ⟨{ record with state := OutOfBandState.PrepareResponse }, some conn⟩)) ∧
    (reuseAcceptedWithinTimeout env record.id conn.id = false →
      acceptInvitation env record config =
        ([OobAction.updateState record.id OutOfBandState.PrepareResponse,
          OobAction.sendReuseMessage conn.id, OobAction.createConnection protocol],
         .ok ⟨{ record with state := OutOfBandState.PrepareResponse },
              some env.createdConnection⟩)) := by
  refine ⟨reuseAccepted_iff env record.id conn.id hsorted, ?_, ?_⟩
  · intro hacc
    unfold acceptInvitation
    simp only [h2, h1, hH, hM, hRC, hE]
    unfold handleHandshakeReuse
    simp only [hacc]
    simp [deliverRequestMessages, Except.map]
  · intro hacc
    unfold acceptInvitation
    simp only [h2, h1, hH, hM, hRC, hE]
    unfold handleHandshakeReuse
    simp only [hacc]
    simp only [Bool.false_eq_true, if_false]
    rw [hproto]
    simp [deliverRequestMessages, Except.map]

theorem deliver_some (env : Env) (t : Nat) (c : ConnectionRecord)
    (msgs : List PlaintextMessage) :
    deliverRequestMessages env t c (some msgs) =
      if c.isReady then emitWithConnection env c msgs
      else ([OobAction.registerReadyWait c.id t], .ok ()) := rfl

theorem ready_delivery_aux (env : Env) (t : Nat) (c : ConnectionRecord)
    (msgs : List PlaintextMessage) (rid : String) (trace pre : List OobAction)
    (houter : trace = OobAction.updateState rid OutOfBandState.PrepareResponse ::
      (pre ++ (deliverRequestMessages env t c (some msgs)).1))
    (hok : (deliverRequestMessages env t c (some msgs)).2 = .ok ())
    (hpre1 : ∀ c' t', OobAction.registerReadyWait c' t' ∉ pre)
    (hpre2 : ∀ c' m, OobAction.emitMessageWithConnection c' m ∉ pre) :
    (c.isReady = true →
      (∃ m, findSupportedMessage env msgs = some m ∧
        OobAction.emitMessageWithConnection c.id m ∈ trace) ∧
      (∀ c' t', OobAction.registerReadyWait c' t' ∉ trace)) ∧
    (c.isReady = false →
      OobAction.registerReadyWait c.id t ∈ trace ∧
      (∀ c' m, OobAction.emitMessageWithConnection c' m ∉ trace)) := by
  rw [deliver_some] at houter hok
  constructor
  · intro hready
    rw [if_pos hready] at houter hok
    rcases hf : findSupportedMessage env msgs with _ | m
    · unfold emitWithConnection at hok
      rw [hf] at hok
      simp at hok
    · unfold emitWithConnection at houter
      rw [hf] at houter
      constructor
      · exact ⟨m, rfl, by rw [houter]; simp⟩
      · intro c' t' hmem
        rw [houter] at hmem
        simp at hmem
        exact hpre1 c' t' hmem
  · intro hready
    rw [if_neg (by rw [hready]; exact Bool.false_ne_true)] at houter hok
    constructor
    · rw [houter]; simp
    · intro c' m hmem
      rw [houter] at hmem
      simp at hmem
      exact hpre2 c' m hmem

/-- Claim C8: during acceptance with attached messages and a chosen
relationship, an already-ready relationship gets the first locally supported
message delivered synchronously (and no wait is registered), while only a
not-yet-ready relationship gets a single bounded wait registered, with the
caller-supplied timeout defaulting to 20000 ms — readiness is checked
synchronously, so a ready relationship is never missed. -/
theorem acceptInvitation_ready_delivery (env : Env) (record : OutOfBandRecord)
    (config : AcceptConfig) (inv : OutOfBandInvitation) (hs : List String)
    (msgs : List PlaintextMessage) (res : AcceptResult) (conn : ConnectionRecord)
    (h2 : record.v2OutOfBandInvitation = none)
    (h1 : record.outOfBandInvitation = some inv)
    (hH : inv.handshakeProtocols = some hs)
    (hM : inv.requests = some msgs)
    (hres : (acceptInvitation env record config).2 = .ok res)
    (hconn : res.connectionRecord = some conn) :
    (conn.isReady = true →
      (∃ m, findSupportedMessage env msgs = some m ∧
        OobAction.emitMessageWithConnection conn.id m ∈
          (acceptInvitation env record config).1) ∧
      (∀ c t, OobAction.registerReadyWait c t ∉ (acceptInvitation env record config).1)) ∧
    (conn.isReady = false →
      OobAction.registerReadyWait conn.id (config.timeoutMs.getD 20000) ∈
        (acceptInvitation env record config).1 ∧
      (∀ c m, OobAction.emitMessageWithConnection c m ∉
        (acceptInvitation env record config).1)) := by
  rcases hEx : findExistingConnection env.connectionsByInvitationDid inv.invitationDids
    with _ | c₀
  · rcases hgf : getFirstSupportedProtocol env hs with e | proto
    · have herr : (acceptInvitation env record config).2 = .error e := by
        unfold acceptInvitation
        simp only [h2, h1, hH, hM, hEx, hgf]
      rw [herr] at hres
      simp at hres
    · have haccept : acceptInvitation env record config =
          (OobAction.updateState record.id OutOfBandState.PrepareResponse ::
            ([OobAction.createConnection proto] ++
              (deliverRequestMessages env (config.timeoutMs.getD 20000)
                env.createdConnection (some msgs)).1),
           (deliverRequestMessages env (config.timeoutMs.getD 20000)
              env.createdConnection (some msgs)).2.map
             (fun _ => ⟨{ record with state := OutOfBandState.PrepareResponse },
                some env.createdConnection⟩)) := by
        unfold acceptInvitation
        simp only [h2, h1, hH, hM, hEx, hgf]
        simp
      rcases hd : (deliverRequestMessages env (config.timeoutMs.getD 20000)
          env.createdConnection (some msgs)).2 with e | u
      · rw [haccept] at hres
        simp only [hd, Except.map] at hres
        simp at hres
      · have hresval : (Except.ok
            ⟨{ record with state := OutOfBandState.PrepareResponse },
              some env.createdConnection⟩ : Except AriesError AcceptResult) = .ok res := by
          rw [haccept] at hres
          simp only [hd, Except.map] at hres
          exact hres
        injection hresval with hresval
        rw [← hresval] at hconn
        simp at hconn
        subst hconn
        have houter := congrArg Prod.fst haccept
        have hok : (deliverRequestMessages env (config.timeoutMs.getD 20000)
            env.createdConnection (some msgs)).2 = .ok () := by
          rw [hd]
        exact ready_delivery_aux env (config.timeoutMs.getD 20000) env.createdConnection
          msgs record.id _ [OobAction.createConnection proto] houter hok
          (by intro c' t'; simp) (by intro c' m; simp)
  · cases hrc : config.reuseConnection
    · rcases hgf : getFirstSupportedProtocol env hs with e | proto
      · have herr : (acceptInvitation env record config).2 = .error e := by
          unfold acceptInvitation
          simp only [h2, h1, hH, hM, hEx, hrc, hgf]
        rw [herr] at hres
        simp at hres
      · have haccept : acceptInvitation env record config =
            (OobAction.updateState record.id OutOfBandState.PrepareResponse ::
              ([OobAction.createConnection proto] ++
                (deliverRequestMessages env (config.timeoutMs.getD 20000)
                  env.createdConnection (some msgs)).1),
             (deliverRequestMessages env (config.timeoutMs.getD 20000)
                env.createdConnection (some msgs)).2.map
               (fun _ => ⟨{ record with state := OutOfBandState.PrepareResponse },
                  some env.createdConnection⟩)) := by
          unfold acceptInvitation
          simp only [h2, h1, hH, hM, hEx, hrc, hgf]
          simp
        rcases hd : (deliverRequestMessages env (config.timeoutMs.getD 20000)
            env.createdConnection (some msgs)).2 with e | u
        · rw [haccept] at hres
          simp only [hd, Except.map] at hres
          simp at hres
        · have hresval : (Except.ok
              ⟨{ record with state := OutOfBandState.PrepareResponse },
                some env.createdConnection⟩ : Except AriesError AcceptResult) = .ok res := by
            rw [haccept] at hres
            simp only [hd, Except.map] at hres
            exact hres
          injection hresval with hresval
          rw [← hresval] at hconn
          simp at hconn
          subst hconn
          have houter := congrArg Prod.fst haccept
          have hok : (deliverRequestMessages env (config.timeoutMs.getD 20000)
              env.createdConnection (some msgs)).2 = .ok () := by
            rw [hd]
          exact ready_delivery_aux env (config.timeoutMs.getD 20000) env.createdConnection
            msgs record.id _ [OobAction.createConnection proto] houter hok
            (by intro c' t'; simp) (by intro c' m; simp)
    · have haccept : acceptInvitation env record config =
          (OobAction.updateState record.id OutOfBandState.PrepareResponse ::
            ([] ++ (deliverRequestMessages env (config.timeoutMs.getD 20000)
              c₀ (some msgs)).1),
           (deliverRequestMessages env (config.timeoutMs.getD 20000) c₀ (some msgs)).2.map
             (fun _ => ⟨{ record with state := OutOfBandState.PrepareResponse },
                some c₀⟩)) := by
        unfold acceptInvitation
        simp only [h2, h1, hH, hM, hEx, hrc]
        simp
      rcases hd : (deliverRequestMessages env (config.timeoutMs.getD 20000)
          c₀ (some msgs)).2 with e | u
      · rw [haccept] at hres
        simp only [hd, Except.map] at hres
        simp at hres
      · have hresval : (Except.ok
            ⟨{ record with state := OutOfBandState.PrepareResponse }, some c₀⟩ :
              Except AriesError AcceptResult) = .ok res := by
          rw [haccept] at hres
          simp only [hd, Except.map] at hres
          exact hres
        injection hresval with hresval
        rw [← hresval] at hconn
        simp at hconn
        subst hconn
        have houter := congrArg Prod.fst haccept
        have hok : (deliverRequestMessages env (config.timeoutMs.getD 20000)
            c₀ (some msgs)).2 = .ok () := by
          rw [hd]
        exact ready_delivery_aux env (config.timeoutMs.getD 20000) c₀
          msgs record.id _ [] houter hok
          (by intro c' t'; simp) (by intro c' m; simp)

/-- Witness for C8: with an already-ready created connection and one supported
attached request, the message is delivered synchronously and no wait is
registered. -/
theorem acceptInvitation_ready_delivery_witness :
    (∃ m, findSupportedMessage envReadyCreate [sampleMessage] = some m ∧
      OobAction.emitMessageWithConnection "conn-new" m ∈
        (acceptInvitation envReadyCreate recWithRequest cfgDefault).1) ∧
    OobAction.registerReadyWait "conn-new" 20000 ∉
      (acceptInvitation envReadyCreate recWithRequest cfgDefault).1 := by
  have h := (acceptInvitation_ready_delivery envReadyCreate recWithRequest cfgDefault
      invWithRequest [didExchangeProtocol] [sampleMessage]
      ⟨{ recWithRequest with state := OutOfBandState.PrepareResponse },
        some { id := "conn-new", isReady := true }⟩
      { id := "conn-new", isReady := true }
      rfl rfl rfl rfl (by rfl) rfl).1 rfl
  exact ⟨h.1, h.2 "conn-new" 20000⟩

/-- Witness for C3: a matching reuse-accepted event at 1000 ms makes
acceptance return the existing relationship after sending the reuse signal. -/
theorem acceptInvitation_reuse_subprotocol_witness :
    acceptInvitation envReuse recV1Basic cfgReuse =
      ([OobAction.updateState "rec-1" OutOfBandState.PrepareResponse,
        OobAction.sendReuseMessage "conn-exist"],
       .ok ⟨{ recV1Basic with state := OutOfBandState.PrepareResponse },
            some connExisting⟩) :=
  (acceptInvitation_reuse_subprotocol envReuse recV1Basic cfgReuse invV1Basic
      [didExchangeProtocol] connExisting didExchangeProtocol
      rfl rfl rfl rfl rfl (by rfl) (by rfl) (by decide)).2.1 (by rfl)

theorem normalizedMessages_isSome (cfg : CreateV1Config) :
    (normalizedMessages cfg).isSome = hasMessages cfg := by
  unfold normalizedMessages hasMessages
  rcases cfg.messages with _ | ms
  · rfl
  · by_cases h : 0 < ms.length
    · simp [h]
    · simp [h]

theorem normalizedMessages_isNone (cfg : CreateV1Config) :
    (normalizedMessages cfg).isNone = !hasMessages cfg := by
  rw [← normalizedMessages_isSome]
  rcases normalizedMessages cfg with _ | v <;> rfl

theorem assertHandshakeProtocols_cases (env : Env) (ps : List String)
    (hsup : filterSupportedProtocolsByMessageFamilies env handshakeMessageFamilies ≠ []) :
    ((∀ p ∈ ps, p ∈ orderedSupportedProtocols env) →
      assertHandshakeProtocols env ps = .ok ()) ∧
    (¬(∀ p ∈ ps, p ∈ orderedSupportedProtocols env) →
      assertHandshakeProtocols env ps = .error .handshakeProtocolsNotSupported) := by
  have hok := getSupported_ok_of_nonempty env hsup
  unfold assertHandshakeProtocols areHandshakeProtocolsSupported
  rw [hok]
  constructor
  · intro hall
    have hall' : ps.all (fun p => decide (p ∈ orderedSupportedProtocols env)) = true := by
      rw [List.all_eq_true]
      intro p hp
      exact decide_eq_true (hall p hp)
    simp only [hall']
  · intro hall
    have hall' : ps.all (fun p => decide (p ∈ orderedSupportedProtocols env)) = false := by
      rw [← Bool.not_eq_true, List.all_eq_true]
      intro hcon
      exact hall (fun p hp => of_decide_eq_true (hcon p hp))
    simp only [hall']

/-- Claim C4: v1 creation fails (persisting nothing) exactly in these
configurations — handshake disabled with no attached messages, handshake
disabled with an explicit protocol list, attached messages together with the
multi-use flag, or an explicit protocol list that is not locally supported;
every other configuration yields a persisted record. -/
theorem createInvitation_v1_validation (env : Env) (cfg : CreateV1Config)
    (hsup : filterSupportedProtocolsByMessageFamilies env handshakeMessageFamilies ≠ []) :
    (∃ e, createInvitation env (.v1 cfg) = .error e) ↔
      ((cfg.handshake.getD true = false ∧ hasMessages cfg = false) ∨
       (cfg.handshake.getD true = false ∧ cfg.handshakeProtocols.isSome = true) ∨
       (hasMessages cfg = true ∧ cfg.multiUseInvitation.getD false = true) ∨
       (∃ ps, cfg.handshakeProtocols = some ps ∧
          ∃ p ∈ ps, p ∉ orderedSupportedProtocols env)) := by
  have hassert := fun ps => assertHandshakeProtocols_cases env ps hsup
  have hmsgN := normalizedMessages_isNone cfg
  have hmsgS := normalizedMessages_isSome cfg
  simp only [createInvitation]
  split_ifs with h1 h2 h3 h4
  · constructor
    · intro _
      left
      refine ⟨h1.1, ?_⟩
      have hn := h1.2
      rw [hmsgN] at hn
      simpa using hn
    · intro _
      exact ⟨_, rfl⟩
  · constructor
    · intro _
      right; left
      exact ⟨h2.1, h2.2⟩
    · intro _
      exact ⟨_, rfl⟩
  · constructor
    · intro _
      right; right; left
      refine ⟨?_, h3.2⟩
      have hn := h3.1
      rw [hmsgS] at hn
      exact hn
    · intro _
      exact ⟨_, rfl⟩
  · rcases hcp : cfg.handshakeProtocols with _ | ps
    · simp only [hcp, getSupported_ok_of_nonempty env hsup]
      constructor
      · rintro ⟨e, he⟩
        simp at he
      · intro hd
        rcases hd with ⟨ha, _⟩ | ⟨ha, _⟩ | ⟨ha, hb⟩ | ⟨ps', hps', _⟩
        · rw [h4] at ha
          simp at ha
        · rw [h4] at ha
          simp at ha
        · exact absurd (h3 ⟨by rw [hmsgS]; exact ha, hb⟩) not_false
        · simp at hps'
    · by_cases hall : ∀ p ∈ ps, p ∈ orderedSupportedProtocols env
      · simp only [hcp, (hassert ps).1 hall]
        constructor
        · rintro ⟨e, he⟩
          simp at he
        · intro hd
          rcases hd with ⟨ha, _⟩ | ⟨ha, _⟩ | ⟨ha, hb⟩ | ⟨ps', hps', p, hp, hpe⟩
          · rw [h4] at ha
            simp at ha
          · rw [h4] at ha
            simp at ha
          · exact absurd (h3 ⟨by rw [hmsgS]; exact ha, hb⟩) not_false
          · injection hps' with hps'
            subst hps'
            exact absurd (hall p hp) hpe
      · simp only [hcp, (hassert ps).2 hall]
        constructor
        · intro _
          right; right; right
          refine ⟨ps, rfl, ?_⟩
          push_neg at hall
          exact hall
        · intro _
          exact ⟨.handshakeProtocolsNotSupported, rfl⟩
  · have hfalse : cfg.handshake.getD true = false := by
      revert h4
      cases cfg.handshake.getD true <;> simp
    constructor
    · rintro ⟨e, he⟩
      simp at he
    · intro hd
      rcases hd with ⟨ha, hb⟩ | ⟨ha, hb⟩ | ⟨ha, hb⟩ | ⟨ps, hps, hpe⟩
      · exact (h1 ⟨ha, by rw [hmsgN, hb]; rfl⟩).elim
      · exact (h2 ⟨ha, hb⟩).elim
      · exact (h3 ⟨by rw [hmsgS]; exact ha, hb⟩).elim
      · exact (h2 ⟨hfalse, by rw [hps]; rfl⟩).elim

/-- Witness for C4: creating with handshake disabled and no messages fails. -/
theorem createInvitation_v1_validation_witness :
    ∃ e, createInvitation envBase
      (.v1 { handshake := some false, handshakeProtocols := none,
             messages := none, multiUseInvitation := none }) = .error e :=
  (createInvitation_v1_validation envBase
      { handshake := some false, handshakeProtocols := none,
        messages := none, multiUseInvitation := none } (by decide)).mpr
    (Or.inl ⟨by decide, by decide⟩)

theorem except_map_not_duplicate {α β : Type} (f : α → β) (x : Except AriesError α)
    (i : String) (hx : x ≠ .error (.duplicateInvitation i)) :
    x.map f ≠ .error (.duplicateInvitation i) := by
  intro h
  rcases x with e | u
  · simp only [Except.map] at h
    injection h with h
    exact hx (by rw [h])
  · simp only [Except.map] at h
    exact Except.noConfusion h

theorem getFirst_not_duplicate (env : Env) (hs : List String) (i : String) :
    getFirstSupportedProtocol env hs ≠ .error (.duplicateInvitation i) := by
  intro h
  simp only [getFirstSupportedProtocol, getFirstSupportedProtocolWith,
    getSupportedHandshakeProtocolsWith] at h
  by_cases hemp : (filterSupportedProtocolsByMessageFamilies env
      handshakeMessageFamilies).isEmpty = true
  · simp only [if_pos hemp] at h
    simp at h
  · simp only [if_neg hemp] at h
    split at h
    · simp at h
    · simp at h

theorem emitWithConnection_not_duplicate (env : Env) (c : ConnectionRecord)
    (msgs : List PlaintextMessage) (i : String) :
    (emitWithConnection env c msgs).2 ≠ .error (.duplicateInvitation i) := by
  unfold emitWithConnection
  split <;> simp

theorem emitWithServices_not_duplicate (env : Env) (svcs : List String)
    (msgs : List PlaintextMessage) (i : String) :
    (emitWithServices env svcs msgs).2 ≠ .error (.duplicateInvitation i) := by
  unfold emitWithServices
  split
  · simp
  · split <;> simp

theorem deliver_not_duplicate (env : Env) (t : Nat) (c : ConnectionRecord)
    (msgs : Option (List PlaintextMessage)) (i : String) :
    (deliverRequestMessages env t c msgs).2 ≠ .error (.duplicateInvitation i) := by
  unfold deliverRequestMessages
  split
  · simp
  · split
    · exact emitWithConnection_not_duplicate env c _ i
    · simp

theorem acceptInvitation_not_duplicate (env : Env) (record : OutOfBandRecord)
    (config : AcceptConfig) (i : String) :
    (acceptInvitation env record config).2 ≠ .error (.duplicateInvitation i) := by
  simp only [acceptInvitation]
  repeat' split
  all_goals
    first
    | (intro h
       refine except_map_not_duplicate _ _ i ?_ h
       first
       | exact deliver_not_duplicate env _ _ _ i
       | exact emitWithConnection_not_duplicate env _ _ i
       | exact emitWithServices_not_duplicate env _ _ i)
    | (simp
       done)
    | (simp
       intro h
       subst h
       exact getFirst_not_duplicate env _ i (by assumption))

theorem receive_v1_saved (env : Env) (store : List OutOfBandRecord) (newRecordId : String)
    (inv : OutOfBandInvitation) (config : ReceiveConfig)
    (hval : ¬((inv.handshakeProtocols.getD []).isEmpty = true ∧
      (inv.requests.getD []).isEmpty = true))
    (hnodedup : ¬(config.isImplicit = false ∧ store.any (fun r =>
      decide (r.invitationTag = some inv.id ∧ r.role = OutOfBandRole.Receiver)) = true)) :
    (receiveInvitationInternal env store newRecordId (.v1 inv) config).store =
      store ++ [mkReceiverRecord newRecordId inv] ∧
    (config.autoAcceptInvitation.getD true = false →
      (receiveInvitationInternal env store newRecordId (.v1 inv) config).result =
        .ok (mkReceiverRecord newRecordId inv, none)) ∧
    (∀ i, (receiveInvitationInternal env store newRecordId (.v1 inv) config).result ≠
      .error (.duplicateInvitation i)) := by
  simp only [receiveInvitationInternal]
  rw [if_neg hval, if_neg hnodedup]
  by_cases hauto : config.autoAcceptInvitation.getD true = true
  · rw [if_pos hauto]
    refine ⟨rfl, ?_, ?_⟩
    · intro hcon
      rw [hauto] at hcon
      simp at hcon
    · intro i
      exact except_map_not_duplicate _ _ i (acceptInvitation_not_duplicate env _ _ i)
  · rw [if_neg hauto]
    refine ⟨rfl, fun _ => rfl, ?_⟩
    intro i h
    simp at h

/-- Claim C5 (amended): receiving a non-implicit v1 invitation whose
identifier already has a persisted Receiver record fails with the
duplicate-invitation error — so a second reception of the same non-implicit
v1 invitation fails — while the implicit reception path never performs the
duplicate check: it persists a new record even when a matching record exists,
never fails with the duplicate-invitation error, and succeeds on repeated
receptions.  The duplicate check is performed only on the v1 path: a
non-implicit v2 invitation is persisted without any duplicate check and its
reception always succeeds, also on repeated receptions of the same
identifier (see the counterexample). -/
theorem receiveInvitation_deduplication (env : Env) (store : List OutOfBandRecord)
    (newRecordId : String) (inv : OutOfBandInvitation) (config : ReceiveConfig) :
    (config.isImplicit = false →
      ¬((inv.handshakeProtocols.getD []).isEmpty = true ∧
        (inv.requests.getD []).isEmpty = true) →
      (∃ r ∈ store, r.invitationTag = some inv.id ∧ r.role = OutOfBandRole.Receiver) →
      (receiveInvitationInternal env store newRecordId (.v1 inv) config).result =
        .error (.duplicateInvitation inv.id) ∧
      (receiveInvitationInternal env store newRecordId (.v1 inv) config).store = store) ∧
    (config.isImplicit = false →
      ¬((inv.handshakeProtocols.getD []).isEmpty = true ∧
        (inv.requests.getD []).isEmpty = true) →
      ¬(∃ r ∈ store, r.invitationTag = some inv.id ∧ r.role = OutOfBandRole.Receiver) →
      ∃ rec, (receiveInvitationInternal env store newRecordId (.v1 inv) config).store =
          store ++ [rec] ∧
        rec.invitationTag = some inv.id ∧ rec.role = OutOfBandRole.Receiver) ∧
    (∀ did hsOpt icfg, (hsOpt.getD [didExchangeProtocol] : List String) ≠ [] →
      (∃ rec, (receiveImplicitInvitation env store newRecordId did hsOpt icfg).store =
          store ++ [rec] ∧ rec.invitationTag = some did ∧
          rec.role = OutOfBandRole.Receiver ∧
          (icfg.autoAcceptInvitation = some false →
            (receiveImplicitInvitation env store newRecordId did hsOpt icfg).result =
              .ok (rec, none))) ∧
      (∀ i, (receiveImplicitInvitation env store newRecordId did hsOpt icfg).result ≠
        .error (.duplicateInvitation i))) ∧
    (∀ v2inv : V2OutOfBandInvitation,
      (receiveInvitationInternal env store newRecordId (.v2 v2inv) config).store =
        store ++ [mkV2ReceiverRecord newRecordId v2inv] ∧
      ∃ c, (receiveInvitationInternal env store newRecordId (.v2 v2inv) config).result =
        .ok (mkV2ReceiverRecord newRecordId v2inv, c)) := by
  refine ⟨?_, ?_, ?_, ?_⟩
  · intro himpl hval hdup
    obtain ⟨r, hr, htag, hrole⟩ := hdup
    have hany : store.any (fun r =>
        decide (r.invitationTag = some inv.id ∧ r.role = OutOfBandRole.Receiver)) = true :=
      List.any_eq_true.mpr ⟨r, hr, decide_eq_true ⟨htag, hrole⟩⟩
    simp only [receiveInvitationInternal]
    rw [if_neg hval, if_pos ⟨himpl, hany⟩]
    exact ⟨rfl, rfl⟩
  · intro himpl hval hnodup
    have hnodedup : ¬(config.isImplicit = false ∧ store.any (fun r =>
        decide (r.invitationTag = some inv.id ∧ r.role = OutOfBandRole.Receiver)) = true) := by
      rintro ⟨-, h2⟩
      obtain ⟨r, hr, hp⟩ := List.any_eq_true.mp h2
      have hp' := of_decide_eq_true hp
      exact hnodup ⟨r, hr, hp'.1, hp'.2⟩
    obtain ⟨hstore, -, -⟩ := receive_v1_saved env store newRecordId inv config hval hnodedup
    refine ⟨_, hstore, ?_, rfl⟩
    simp [OutOfBandRecord.invitationTag, mkReceiverRecord]
  · intro did hsOpt icfg hne
    have hri : receiveImplicitInvitation env store newRecordId did hsOpt icfg =
        receiveInvitationInternal env store newRecordId
          (.v1 (implicitInvitation did hsOpt)) (implicitConfig icfg) := rfl
    have hval : ¬(((implicitInvitation did hsOpt).handshakeProtocols.getD
        []).isEmpty = true ∧ ((implicitInvitation did hsOpt).requests.getD
        []).isEmpty = true) := by
      rintro ⟨ha, -⟩
      simp only [implicitInvitation, Option.getD_some] at ha
      exact hne (List.isEmpty_iff.mp ha)
    have hnodedup : ¬((implicitConfig icfg).isImplicit = false ∧
        store.any (fun r => decide (r.invitationTag =
          some (implicitInvitation did hsOpt).id ∧
          r.role = OutOfBandRole.Receiver)) = true) := by
      rintro ⟨ha, -⟩
      simp [implicitConfig] at ha
    obtain ⟨hstore, hok, hnodup⟩ := receive_v1_saved env store newRecordId
      (implicitInvitation did hsOpt) (implicitConfig icfg) hval hnodedup
    rw [hri]
    constructor
    · refine ⟨_, hstore, ?_, rfl, ?_⟩
      · simp [OutOfBandRecord.invitationTag, mkReceiverRecord, implicitInvitation]
      · intro hfalse
        exact hok (by
          show (implicitConfig icfg).autoAcceptInvitation.getD true = false
          rw [show (implicitConfig icfg).autoAcceptInvitation =
              icfg.autoAcceptInvitation from rfl, hfalse]
          rfl)
    · exact hnodup
  · intro v2inv
    simp only [receiveInvitationInternal]
    by_cases hauto : config.autoAcceptInvitation.getD true = true
    · rw [if_pos hauto]
      exact ⟨rfl, env.v2AcceptResult, rfl⟩
    · rw [if_neg hauto]
      exact ⟨rfl, none, rfl⟩

/-- Counterexample to C5 as stated: the duplicate check is skipped for v2
invitations — after a first reception has persisted a Receiver record for the
identifier "inv-2", a second non-implicit reception of the same v2 invitation
still succeeds and persists another record instead of failing. -/
theorem receiveInvitation_v2_second_reception_succeeds :
    ((receiveInvitationInternal envBase [] "rec-c"
        (.v2 { id := "inv-2" }) rcvCfgNoAccept).store.any (fun r =>
      decide (r.invitationTag = some "inv-2" ∧ r.role = OutOfBandRole.Receiver)) = true) ∧
    rcvCfgNoAccept.isImplicit = false ∧
    (receiveInvitationInternal envBase
        (receiveInvitationInternal envBase [] "rec-c"
          (.v2 { id := "inv-2" }) rcvCfgNoAccept).store
        "rec-d" (.v2 { id := "inv-2" }) rcvCfgNoAccept).result =
      .ok (mkV2ReceiverRecord "rec-d" { id := "inv-2" }, none) := by
  refine ⟨by decide, rfl, by rfl⟩

/-- Witness for C5: with a matching Receiver record already stored, a second
reception of the same non-implicit v1 invitation fails with the
duplicate-invitation error. -/
theorem receiveInvitation_deduplication_witness :
    rcvCfgNoAccept.isImplicit = false ∧
    (∃ r ∈ [mkReceiverRecord "rec-a" invV1Basic], r.invitationTag = some invV1Basic.id ∧
      r.role = OutOfBandRole.Receiver) ∧
    (receiveInvitationInternal envBase [mkReceiverRecord "rec-a" invV1Basic] "rec-b"
        (.v1 invV1Basic) rcvCfgNoAccept).result = .error (.duplicateInvitation "inv-1") :=
  ⟨rfl, by decide, ((receiveInvitation_deduplication envBase
      [mkReceiverRecord "rec-a" invV1Basic] "rec-b" invV1Basic rcvCfgNoAccept).1
      rfl (by decide) (by decide)).1⟩
